import Mathlib

/-!
Shallow embedding of the teknohole WebStorage JavaScript client
(src/webstorage/index.js) together with proofs about its behaviour.

Modelling conventions:
  - HTTP effects are made explicit: every operation returns, next to its
    result envelope, the list of HTTP requests it issued, in order.
  - The outcome of each external HTTP exchange (axios or fetch) is an input
    parameter of the model (an oracle), covering the three cases the code
    distinguishes: a successful response, an HTTP error response carrying a
    status and a JSON body, and a network-level failure where no response
    was received.
  - JavaScript strings are Lean Strings; string truthiness (falsy iff the
    empty string, or null/undefined) is modelled with Option String or with
    explicit comparisons against the empty string, mirroring each use site.
  - JavaScript numbers used by the code are non-negative integers (file
    sizes, statuses, limits) and are modelled as Nat; numeric truthiness is
    the comparison against 0 at the use sites that apply it.
  - String.split, toLowerCase (on the ASCII range the MIME table uses) and
    path.basename (for POSIX paths without trailing separators) are
    re-implemented structurally so that all definitions evaluate by decide.
  - URLSearchParams percent-encoding is abstracted as the identity: the
    values are only compared opaquely, never decoded, by the properties
    proved here.
-/

/-- Character-level splitter: splitAux sep cs acc splits cs at sep, with acc
holding the (reversed) characters of the current segment. Models the
semantics of the JavaScript String.prototype.split with a single-character
separator, which always yields at least one (possibly empty) segment. -/
def splitAux (sep : Char) : List Char → List Char → List String
  | [], acc => [String.mk acc.reverse]
  | c :: cs, acc =>
      if c = sep then String.mk acc.reverse :: splitAux sep cs []
      else splitAux sep cs (c :: acc)

/-- JavaScript-style split on a single-character separator. -/
def jsSplit (sep : Char) (s : String) : List String := splitAux sep s.data []

/-- ASCII lower-casing of one character; the MIME table below only contains
ASCII keys, so this is the fragment of toLowerCase the code exercises. -/
def lowerChar (c : Char) : Char :=
  if 'A' ≤ c ∧ c ≤ 'Z' then Char.ofNat (c.toNat + 32) else c

/-- ASCII lower-casing of a string (String.prototype.toLowerCase). -/
def lowerStr (s : String) : String := String.mk (s.data.map lowerChar)

/-- Model of path.basename for POSIX paths without trailing separators:
the last slash-separated component. -/
def path_basename (p : String) : String := ((jsSplit '/' p).getLast?).getD p

/-- Client construction state: apiKey and storageName, both required by the
constructor (construction throws when either is empty; only successfully
constructed clients are modelled). serviceUrl is the fixed constant. -/
structure ClientConfig where
  apiKey : String
  storageName : String
deriving DecidableEq, Repr

/-- The fixed service origin set by the constructor. -/
def serviceUrl : String := "https://storage.teknohole.com"

/-- Headers attached to every service call (method _getServiceHeaders). -/
def _getServiceHeaders (cfg : ClientConfig) : List (String × String) :=
  [("Authorization", "ApiKey " ++ cfg.apiKey),
   ("Storage", "Storage " ++ cfg.storageName),
   ("Content-Type", "application/json")]

/-- Response payloads the client inspects: the presign grant with its url
and key fields, the upload success payload with its key field, and opaque
bodies (delete / storage info / file listing responses), which the client
forwards without inspecting. -/
inductive RespData where
  | grant (url : String) (key : String)
  | uploaded (key : String)
  | opaqueBody
deriving DecidableEq, Repr

/-- Request bodies the client sends: none, the presign JSON payload, the
delete JSON payload, or the raw file bytes of the upload PUT. -/
inductive ReqBody where
  | empty
  | presign (fileName : String) (fileType : String) (fileSize : Nat)
  | key (k : String)
  | raw
deriving DecidableEq, Repr

/-- One HTTP request as issued on the wire: method, effective URL (the
axios baseURL already prepended), the headers and the body. -/
structure Request where
  method : String
  url : String
  headers : List (String × String)
  body : ReqBody
deriving DecidableEq, Repr

/-- The universal result envelope every operation returns. Absent fields of
the JavaScript object are the none values here. -/
structure Envelope where
  success : Bool
  status : Option Nat := none
  data : Option RespData := none
  message : Option String := none
deriving DecidableEq, Repr

/-- Outcome of one axios exchange, as the code discriminates it: a response
with a 2xx status carrying data, an axios error that has a response (its
status, and the message / detail fields of the JSON error body, none when
absent), or an error without a response (network-level failure). -/
inductive AxiosOutcome where
  | ok (data : RespData)
  | httpError (status : Nat) (message : Option String) (detail : Option String)
  | networkError (cause : String)
deriving DecidableEq, Repr

/-- Outcome of one fetch exchange in the browser transport: an ok response
carrying JSON data, a non-ok response (status, and the message / detail
fields of its JSON body, none when absent or unparsable), or a thrown
error (network-level failure). -/
inductive FetchOutcome where
  | ok (data : RespData)
  | notOk (status : Nat) (message : Option String) (detail : Option String)
  | threw (cause : String)
deriving DecidableEq, Repr

/-- Outcome of the presign exchange: on success the code destructures the
url and key fields of the response data, so the successful case carries
exactly those. -/
inductive PresignOutcome where
  | ok (url : String) (key : String)
  | httpError (status : Nat) (message : Option String) (detail : Option String)
  | networkError (cause : String)
deriving DecidableEq, Repr

/-- A presign outcome as the generic axios outcome it is produced from. -/
def PresignOutcome.toAxios : PresignOutcome → AxiosOutcome
  | .ok u k => .ok (.grant u k)
  | .httpError s m d => .httpError s m d
  | .networkError c => .networkError c

/-- Outcome of the raw upload PUT (axios.put in Node, fetch in browser):
success, an HTTP error response with its status and statusText, or a
network-level failure with its cause. -/
inductive PutOutcome where
  | ok
  | httpError (status : Nat) (statusText : String)
  | networkError (cause : String)
deriving DecidableEq, Repr

/-- Request specification as passed to the transport helpers: method, URL
relative to the service origin, extra headers and body. -/
structure RequestSpec where
  method : String
  url : String
  headers : List (String × String) := []
  data : ReqBody := ReqBody.empty
deriving DecidableEq, Repr

/-- JavaScript truthiness filter on a possibly absent string: the result is
some s exactly when s is present and non-empty. -/
def jsTruthy : Option String → Option String
  | some s => if s = "" then none else some s
  | none => none

/-- Error message selection of both transports:
responseData?.message || responseData?.detail || 'Terjadi kesalahan HTTP.'. -/
def errMessage (m d : Option String) : String :=
  match jsTruthy m with
  | some s => s
  | none =>
      match jsTruthy d with
      | some s => s
      | none => "Terjadi kesalahan HTTP."

/-- Object-spread merge of two header maps, later entries overriding
earlier ones on the same key, as in spreading the service headers followed
by the per-request headers. -/
def mergeHeaders (base extra : List (String × String)) : List (String × String) :=
  base.filter (fun hv => extra.all (fun hv2 => !(hv2.1 == hv.1))) ++ extra

/-- Method _requestToService: one axios exchange against the service origin
with the service headers merged under the per-request headers, normalising
the three outcome shapes into an envelope. Returns the envelope and the
request it issued. -/
def _requestToService (cfg : ClientConfig) (spec : RequestSpec)
    (outcome : AxiosOutcome) : Envelope × Request :=
  let req : Request :=
    { method := spec.method
      url := serviceUrl ++ spec.url
      headers := mergeHeaders (_getServiceHeaders cfg) spec.headers
      body := spec.data }
  match outcome with
  | .ok d => ({ success := true, data := some d }, req)
  | .httpError st m d =>
      ({ success := false, message := some (errMessage m d), status := some st }, req)
  | .networkError c =>
      ({ success := false, message := some ("Koneksi ke server gagal: " ++ c) }, req)

/-- Method _requestToServiceBrowser: the fetch fallback transport. Method
defaults to GET when absent; a non-ok response is normalised from its JSON
body exactly as in the axios transport; a thrown fetch maps to the same
connection-failure envelope. -/
def _requestToServiceBrowser (cfg : ClientConfig) (spec : RequestSpec)
    (outcome : FetchOutcome) : Envelope × Request :=
  let req : Request :=
    { method := if spec.method = "" then "GET" else spec.method
      url := serviceUrl ++ spec.url
      headers := mergeHeaders (_getServiceHeaders cfg) spec.headers
      body := spec.data }
  match outcome with
  | .ok d => ({ success := true, data := some d }, req)
  | .notOk st m d =>
      ({ success := false, message := some (errMessage m d), status := some st }, req)
  | .threw c =>
      ({ success := false, message := some ("Koneksi ke server gagal: " ++ c) }, req)

/-- The extension lookup table of _getBrowserMimeType, verbatim. -/
def mimeTypes : List (String × String) :=
  [("jpg", "image/jpeg"),
   ("jpeg", "image/jpeg"),
   ("png", "image/png"),
   ("gif", "image/gif"),
   ("webp", "image/webp"),
   ("svg", "image/svg+xml"),
   ("bmp", "image/bmp"),
   ("ico", "image/x-icon"),
   ("pdf", "application/pdf"),
   ("doc", "application/msword"),
   ("docx", "application/vnd.openxmlformats-officedocument.wordprocessingml.document"),
   ("xls", "application/vnd.ms-excel"),
   ("xlsx", "application/vnd.openxmlformats-officedocument.spreadsheetml.sheet"),
   ("ppt", "application/vnd.ms-powerpoint"),
   ("pptx", "application/vnd.openxmlformats-officedocument.presentationml.presentation"),
   ("txt", "text/plain"),
   ("rtf", "application/rtf"),
   ("zip", "application/zip"),
   ("rar", "application/vnd.rar"),
   ("7z", "application/x-7z-compressed"),
   ("tar", "application/x-tar"),
   ("gz", "application/gzip"),
   ("mp3", "audio/mpeg"),
   ("wav", "audio/wav"),
   ("ogg", "audio/ogg"),
   ("aac", "audio/aac"),
   ("flac", "audio/flac"),
   ("mp4", "video/mp4"),
   ("avi", "video/x-msvideo"),
   ("mov", "video/quicktime"),
   ("wmv", "video/x-ms-wmv"),
   ("flv", "video/x-flv"),
   ("webm", "video/webm"),
   ("mkv", "video/x-matroska"),
   ("html", "text/html"),
   ("htm", "text/html"),
   ("css", "text/css"),
   ("js", "application/javascript"),
   ("json", "application/json"),
   ("xml", "application/xml"),
   ("ttf", "font/ttf"),
   ("otf", "font/otf"),
   ("woff", "font/woff"),
   ("woff2", "font/woff2"),
   ("eot", "application/vnd.ms-fontobject")]

/-- The extension extracted by _getBrowserMimeType before lower-casing:
fileName.split('.').pop(). The split result is never empty, so the pop
always yields its last element. -/
def lastDotSegment (fileName : String) : String :=
  ((jsSplit '.' fileName).getLast?).getD ""

/-- Method _getBrowserMimeType: look up the lower-cased last dot-separated
segment in the table, with the octet-stream fallback. -/
def _getBrowserMimeType (fileName : String) : String :=
  (mimeTypes.lookup (lowerStr (lastDotSegment fileName))).getD "application/octet-stream"

/-- Filesystem facts about the one path being uploaded, as the Node adapter
reads them: fs.existsSync and the size field of fs.statSync. -/
structure NodeFs where
  existsSync : Bool
  size : Nat
deriving DecidableEq, Repr

/-- A browser File handle: its name, type and size fields. An absent or
empty type field is the empty string (falsy), making the adapter fall back
to _getBrowserMimeType. -/
structure BrowserFile where
  name : String
  type : String
  size : Nat
deriving DecidableEq, Repr

/-- The presign payload the Node adapter builds:
{fileName: path.basename, fileType: mime.lookup || octet-stream, fileSize}.
The mime.lookup result of the external mime-types package is an oracle
(none models its false return). -/
def nodePresignPayload (filePath : String) (fsm : NodeFs) (mim : Option String) : ReqBody :=
  ReqBody.presign (path_basename filePath) (mim.getD "application/octet-stream") fsm.size

/-- The content type the browser adapter resolves:
file.type || this._getBrowserMimeType(file.name). -/
def browserFileType (f : BrowserFile) : String :=
  if f.type = "" then _getBrowserMimeType f.name else f.type

/-- The presign payload the browser adapter builds from a File handle. -/
def browserPresignPayload (f : BrowserFile) : ReqBody :=
  ReqBody.presign f.name (browserFileType f) f.size

/-- Method _uploadFileNode: reject a missing file locally, then presign via
the service transport, return a presign failure verbatim, otherwise PUT the
file stream to the granted URL with Content-Type and Content-Length from
the presign payload and normalise the PUT outcome. The second component
lists the requests issued, in order. -/
def _uploadFileNode (cfg : ClientConfig) (filePath : String) (fsm : NodeFs)
    (mim : Option String) (pres : PresignOutcome) (put : PutOutcome) :
    Envelope × List Request :=
  if fsm.existsSync = false then
    ({ success := false, message := some ("File tidak ditemukan: " ++ filePath) }, [])
  else
    let fileType := mim.getD "application/octet-stream"
    let pr := _requestToService cfg
      { method := "POST", url := "/cdn/upload-url/", data := nodePresignPayload filePath fsm mim }
      pres.toAxios
    if pr.1.success = false then
      (pr.1, [pr.2])
    else
      match pres with
      | .ok uploadUrl objectKey =>
          let putReq : Request :=
            { method := "PUT", url := uploadUrl
              headers := [("Content-Type", fileType), ("Content-Length", toString fsm.size)]
              body := ReqBody.raw }
          match put with
          | .ok =>
              ({ success := true, message := some "File berhasil diunggah."
                 data := some (RespData.uploaded objectKey) }, [pr.2, putReq])
          | .httpError st stext =>
              ({ success := false
                 message := some ("Gagal mengunggah ke storage: " ++ toString st ++ " - " ++ stext) },
               [pr.2, putReq])
          | .networkError c =>
              ({ success := false, message := some ("Koneksi ke storage gagal: " ++ c) },
               [pr.2, putReq])
      | _ => (pr.1, [pr.2])

/-- Method _uploadFileBrowser: presign via the service transport (the fetch
fallback normalises outcomes identically, so one outcome oracle covers
both strategies), return a presign failure verbatim, otherwise PUT the File
via fetch with the resolved Content-Type and normalise the PUT outcome. -/
def _uploadFileBrowser (cfg : ClientConfig) (f : BrowserFile)
    (pres : PresignOutcome) (put : PutOutcome) : Envelope × List Request :=
  let pr := _requestToService cfg
    { method := "POST", url := "/cdn/upload-url/", data := browserPresignPayload f }
    pres.toAxios
  if pr.1.success = false then
    (pr.1, [pr.2])
  else
    match pres with
    | .ok uploadUrl objectKey =>
        let putReq : Request :=
          { method := "PUT", url := uploadUrl
            headers := [("Content-Type", browserFileType f)]
            body := ReqBody.raw }
        match put with
        | .ok =>
            ({ success := true, message := some "File berhasil diunggah."
               data := some (RespData.uploaded objectKey) }, [pr.2, putReq])
        | .httpError st stext =>
            ({ success := false
               message := some ("Gagal mengunggah ke storage: " ++ toString st ++ " - " ++ stext) },
             [pr.2, putReq])
        | .networkError c =>
            ({ success := false, message := some ("Koneksi ke storage gagal: " ++ c) },
             [pr.2, putReq])
    | _ => (pr.1, [pr.2])

/-- The argument of uploadFile: a path string, a File instance, or any
other value (the shape the final validation branch rejects). -/
inductive UploadInput where
  | path (p : String)
  | file (f : BrowserFile)
  | invalid
deriving DecidableEq, Repr

/-- The environment probe flags isNode and isBrowser, fixed per process. -/
structure HostEnv where
  isNode : Bool
  isBrowser : Bool
deriving DecidableEq, Repr

/-- The external world one upload consumes: the filesystem facts of its
path, the mime.lookup answer, and the outcomes of its two HTTP phases. -/
structure UploadWorld where
  fs : NodeFs
  mime : Option String
  presign : PresignOutcome
  put : PutOutcome
deriving DecidableEq, Repr

/-- Method uploadFile: dispatch on the input shape and the environment
flags, exactly following the branch ladder of the source: a string goes to
the Node adapter when isNode holds and is rejected locally otherwise; a
File instance always goes to the browser adapter; anything else is
rejected locally. -/
def uploadFile (host : HostEnv) (cfg : ClientConfig) (w : UploadWorld)
    (input : UploadInput) : Envelope × List Request :=
  match input with
  | .path p =>
      if host.isNode then _uploadFileNode cfg p w.fs w.mime w.presign w.put
      else
        ({ success := false
           message := some "File path tidak didukung di browser. Gunakan File object." }, [])
  | .file f => _uploadFileBrowser cfg f w.presign w.put
  | .invalid =>
      ({ success := false
         message := some "Parameter tidak valid. Gunakan file path (Node.js) atau File object (Browser)." }, [])

/-- Method deleteFile: an empty (falsy) object key is rejected locally with
no request issued; otherwise a single DELETE with the key as JSON payload
goes through the service transport. -/
def deleteFile (cfg : ClientConfig) (objectKey : String)
    (outcome : AxiosOutcome) : Envelope × List Request :=
  if objectKey = "" then
    ({ success := false, message := some "Object key diperlukan." }, [])
  else
    let pr := _requestToService cfg
      { method := "DELETE", url := "/cdn/delete-object/", data := ReqBody.key objectKey }
      outcome
    (pr.1, [pr.2])

/-- Method getStorageInfo: a single GET on the storage path. -/
def getStorageInfo (cfg : ClientConfig) (outcome : AxiosOutcome) :
    Envelope × List Request :=
  let pr := _requestToService cfg
    { method := "GET", url := "/cdn/storages/" ++ cfg.storageName ++ "/" }
    outcome
  (pr.1, [pr.2])

/-- Options of listFiles; absent limit is 0 (falsy), absent prefix is the
empty string (falsy). -/
structure ListOptions where
  limit : Nat := 0
  pfx : String := ""
deriving DecidableEq, Repr

/-- The query parameters listFiles appends: limit only when truthy
(non-zero), the prefix only when truthy (non-empty). -/
def listQueryParams (o : ListOptions) : List (String × String) :=
  (if o.limit ≠ 0 then [("limit", toString o.limit)] else []) ++
  (if o.pfx ≠ "" then [("prefix", o.pfx)] else [])

/-- URLSearchParams.toString: key=value pairs joined by the ampersand
(percent-encoding abstracted as the identity). -/
def searchParamsToString (ps : List (String × String)) : String :=
  String.intercalate "&" (ps.map (fun p => p.1 ++ "=" ++ p.2))

/-- The URL listFiles builds: the files path of the storage, the question
mark separator, then the serialised query parameters. -/
def listFilesUrl (cfg : ClientConfig) (o : ListOptions) : String :=
  "/cdn/storages/" ++ cfg.storageName ++ "/files/?" ++ searchParamsToString (listQueryParams o)

/-- Method listFiles: a single GET on the files path with the optional
query parameters. -/
def listFiles (cfg : ClientConfig) (o : ListOptions) (outcome : AxiosOutcome) :
    Envelope × List Request :=
  let pr := _requestToService cfg { method := "GET", url := listFilesUrl cfg o } outcome
  (pr.1, [pr.2])

/-- Options of uploadMultipleFiles with the declared defaults. -/
structure BatchOptions where
  concurrent : Bool := true
  maxConcurrent : Nat := 3
deriving DecidableEq, Repr

/-- One entry of the batch result: the spread of the per-file envelope with
the added fileName tag. -/
structure TaggedResult where
  result : Envelope
  fileName : String
deriving DecidableEq, Repr

/-- The fileName tag of a batch entry: the path itself for a string input,
the name field for a File input (and the empty string where the source
would read the undefined name field of an invalid input). -/
def fileNameOf : UploadInput → String
  | .path p => p
  | .file f => f.name
  | .invalid => ""

/-- One batch item: upload the file and tag the envelope with its name.
The per-item try/catch of the source converts a thrown exception into a
failure entry; the model's uploadFile already returns every failure as an
envelope, so no separate thrown case arises. -/
def uploadOne (host : HostEnv) (cfg : ClientConfig)
    (worlds : UploadInput → UploadWorld) (f : UploadInput) : TaggedResult :=
  { result := (uploadFile host cfg (worlds f) f).1, fileName := fileNameOf f }

/-- The chunking of the concurrent for loop (i advancing by n, each chunk
the slice of the next n items), with the loop counter made explicit as
structural fuel: one loop iteration per fuel step, enough fuel making the
two definitions agree. -/
def chunksFuel (n : Nat) : Nat → List α → List (List α)
  | _, [] => []
  | 0, _ :: _ => []
  | fuel + 1, x :: xs => (x :: xs).take n :: chunksFuel n fuel ((x :: xs).drop n)

/-- The chunk list of the concurrent loop over l with chunk size n: the
loop runs at most l.length iterations when n is at least 1. -/
def jsChunks (n : Nat) (l : List α) : List (List α) := chunksFuel n l.length l

/-- The failure entry returned for an empty or non-array argument. -/
def emptyBatchFailure : TaggedResult :=
  { result := { success := false, message := some "Array file diperlukan dan tidak boleh kosong." }
    fileName := "" }

/-- Method uploadMultipleFiles: an absent/non-array argument (none) or an
empty array yields the single local failure entry; otherwise the uploads
run chunk by chunk in concurrent mode (maxConcurrent falling back to 3
when falsy), or one by one in sequential mode, results collected in input
order. -/
def uploadMultipleFiles (host : HostEnv) (cfg : ClientConfig)
    (worlds : UploadInput → UploadWorld) (files : Option (List UploadInput))
    (options : BatchOptions) : List TaggedResult :=
  match files with
  | none => [emptyBatchFailure]
  | some [] => [emptyBatchFailure]
  | some l =>
      if options.concurrent then
        let maxConcurrent := if options.maxConcurrent = 0 then 3 else options.maxConcurrent
        ((jsChunks maxConcurrent l).map (fun batch => batch.map (uploadOne host cfg worlds))).flatten
      else
        l.map (uploadOne host cfg worlds)

/-- The 5 GiB figure named by the specification's upload size cap. -/
def fiveGiB : Nat := 5 * 1024 * 1024 * 1024

/-- An envelope reports its failure: success false implies a non-empty
message. -/
def msgPopulated (e : Envelope) : Prop :=
  e.success = false → ∃ m, e.message = some m ∧ m ≠ ""

/-- A successful upload envelope carries its object key. -/
def uploadKeyed (e : Envelope) : Prop :=
  e.success = true → ∃ k, e.data = some (RespData.uploaded k)

/-! Helper lemmas shared by the claim theorems. -/

theorem append_ne_empty_left {a : String} (b : String) (h : a ≠ "") : a ++ b ≠ "" := by
  intro hab
  apply h
  have hlen := congrArg String.length hab
  rw [String.length_append] at hlen
  have hz : a.length = 0 := by
    have h0 : ("" : String).length = 0 := rfl
    omega
  cases a with
  | mk dat =>
      cases dat with
      | nil => rfl
      | cons c cs => simp [String.length] at hz

theorem jsTruthy_some_ne (x : Option String) (s : String) (h : jsTruthy x = some s) :
    s ≠ "" := by
  cases x with
  | none => simp [jsTruthy] at h
  | some t =>
      by_cases ht : t = ""
      · simp [jsTruthy, ht] at h
      · simp [jsTruthy, ht] at h
        rw [← h]
        exact ht

theorem errMessage_ne_empty (m d : Option String) : errMessage m d ≠ "" := by
  cases hm : jsTruthy m with
  | some s =>
      simp only [errMessage, hm]
      exact jsTruthy_some_ne m s hm
  | none =>
      cases hd : jsTruthy d with
      | some s =>
          simp only [errMessage, hm, hd]
          exact jsTruthy_some_ne d s hd
      | none =>
          simp only [errMessage, hm, hd]
          decide

theorem mergeHeaders_nil (base : List (String × String)) : mergeHeaders base [] = base := by
  simp [mergeHeaders]

theorem requestToService_snd (cfg : ClientConfig) (spec : RequestSpec) (outcome : AxiosOutcome) :
    (_requestToService cfg spec outcome).2 =
      { method := spec.method, url := serviceUrl ++ spec.url,
        headers := mergeHeaders (_getServiceHeaders cfg) spec.headers, body := spec.data } := by
  cases outcome <;> rfl

theorem requestToService_msgPopulated (cfg : ClientConfig) (spec : RequestSpec)
    (outcome : AxiosOutcome) : msgPopulated (_requestToService cfg spec outcome).1 := by
  cases outcome with
  | ok d => intro h; simp [_requestToService] at h
  | httpError st m dt =>
      intro _
      exact ⟨errMessage m dt, rfl, errMessage_ne_empty m dt⟩
  | networkError c =>
      intro _
      exact ⟨"Koneksi ke server gagal: " ++ c, rfl, append_ne_empty_left c (by decide)⟩

theorem requestToServiceBrowser_msgPopulated (cfg : ClientConfig) (spec : RequestSpec)
    (outcome : FetchOutcome) : msgPopulated (_requestToServiceBrowser cfg spec outcome).1 := by
  cases outcome with
  | ok d => intro h; simp [_requestToServiceBrowser] at h
  | notOk st m dt =>
      intro _
      exact ⟨errMessage m dt, rfl, errMessage_ne_empty m dt⟩
  | threw c =>
      intro _
      exact ⟨"Koneksi ke server gagal: " ++ c, rfl, append_ne_empty_left c (by decide)⟩

/-! Claim theorems. -/

/-- C2 (counterexample): on a network-level failure (no response received)
the transport returns an envelope whose status field is absent, not an
implementation-defined integer. -/
theorem transport_network_failure_no_status_counterexample :
    ((_requestToService ⟨"k", "s"⟩ { method := "POST", url := "/cdn/upload-url/" }
        (AxiosOutcome.networkError "ETIMEDOUT")).1.success = false) ∧
    ((_requestToService ⟨"k", "s"⟩ { method := "POST", url := "/cdn/upload-url/" }
        (AxiosOutcome.networkError "ETIMEDOUT")).1.status = none) ∧
    ((_requestToService ⟨"k", "s"⟩ { method := "POST", url := "/cdn/upload-url/" }
        (AxiosOutcome.networkError "ETIMEDOUT")).1.message =
      some "Koneksi ke server gagal: ETIMEDOUT") := by
  exact ⟨rfl, rfl, rfl⟩

/-- C2 (amended): on every network-level failure both transports return an
envelope with success false, no status field, no data, and a message
embedding the underlying cause after the fixed connection-failure prefix. -/
theorem transport_network_failure_envelope (cfg : ClientConfig) (spec : RequestSpec)
    (cause : String) :
    (_requestToService cfg spec (AxiosOutcome.networkError cause)).1 =
      { success := false, status := none, data := none,
        message := some ("Koneksi ke server gagal: " ++ cause) } ∧
    (_requestToServiceBrowser cfg spec (FetchOutcome.threw cause)).1 =
      { success := false, status := none, data := none,
        message := some ("Koneksi ke server gagal: " ++ cause) } :=
  ⟨rfl, rfl⟩

/-- C6: an absent/non-array argument or an empty array given to
uploadMultipleFiles yields exactly the one-element array holding the local
failure entry, never the empty array. -/
theorem uploadMultipleFiles_empty_input (host : HostEnv) (cfg : ClientConfig)
    (worlds : UploadInput → UploadWorld) (opts : BatchOptions)
    (inp : Option (List UploadInput)) (h : inp = none ∨ inp = some []) :
    uploadMultipleFiles host cfg worlds inp opts = [emptyBatchFailure] ∧
    emptyBatchFailure.result.success = false ∧
    emptyBatchFailure.result.message = some "Array file diperlukan dan tidak boleh kosong." ∧
    uploadMultipleFiles host cfg worlds inp opts ≠ [] := by
  rcases h with h | h <;> subst h <;>
    exact ⟨rfl, rfl, rfl, by simp [uploadMultipleFiles]⟩

/-- C6 witness at a concrete non-array input. -/
theorem uploadMultipleFiles_empty_input_witness :
    uploadMultipleFiles ⟨true, false⟩ ⟨"k", "s"⟩
        (fun _ => ⟨⟨true, 1⟩, none, PresignOutcome.ok "u" "o", PutOutcome.ok⟩) none {} =
      [emptyBatchFailure] :=
  (uploadMultipleFiles_empty_input ⟨true, false⟩ ⟨"k", "s"⟩
    (fun _ => ⟨⟨true, 1⟩, none, PresignOutcome.ok "u" "o", PutOutcome.ok⟩) {} none
    (Or.inl rfl)).1

/-- C7: deleteFile rejects an empty object key locally, issuing no request;
for a non-empty key it issues exactly one DELETE through the service
transport with the key as JSON payload. -/
theorem deleteFile_spec (cfg : ClientConfig) (key : String) (outcome : AxiosOutcome) :
    (key = "" →
      deleteFile cfg key outcome =
        ({ success := false, message := some "Object key diperlukan." }, [])) ∧
    (key ≠ "" →
      (deleteFile cfg key outcome).2 =
        [{ method := "DELETE", url := serviceUrl ++ "/cdn/delete-object/",
           headers := _getServiceHeaders cfg, body := ReqBody.key key }] ∧
      (deleteFile cfg key outcome).1 =
        (_requestToService cfg
          { method := "DELETE", url := "/cdn/delete-object/", data := ReqBody.key key }
          outcome).1) := by
  constructor
  · intro h; subst h; rfl
  · intro h
    constructor
    · simp only [deleteFile, if_neg h, requestToService_snd, mergeHeaders_nil]
    · simp only [deleteFile, if_neg h]

/-- C7 witness at a concrete empty key and a concrete non-empty key. -/
theorem deleteFile_spec_witness :
    deleteFile ⟨"k", "s"⟩ "" (AxiosOutcome.ok RespData.opaqueBody) =
      ({ success := false, message := some "Object key diperlukan." }, []) ∧
    (deleteFile ⟨"k", "s"⟩ "obj-1" (AxiosOutcome.ok RespData.opaqueBody)).2 =
      [{ method := "DELETE", url := serviceUrl ++ "/cdn/delete-object/",
         headers := _getServiceHeaders ⟨"k", "s"⟩, body := ReqBody.key "obj-1" }] :=
  ⟨(deleteFile_spec ⟨"k", "s"⟩ "" (AxiosOutcome.ok RespData.opaqueBody)).1 rfl,
   ((deleteFile_spec ⟨"k", "s"⟩ "obj-1" (AxiosOutcome.ok RespData.opaqueBody)).2 (by decide)).1⟩

/-- C10: listFiles drops each query parameter whose option value is falsy
(limit 0, empty prefix); with both dropped the single GET request's URL is
the files path ending in the bare question-mark separator. -/
theorem listFiles_param_omission (cfg : ClientConfig) (o : ListOptions)
    (outcome : AxiosOutcome) :
    ((listFiles cfg o outcome).2.map Request.url = [serviceUrl ++ listFilesUrl cfg o]) ∧
    (o.limit = 0 → ∀ qp ∈ listQueryParams o, qp.1 ≠ "limit") ∧
    (o.pfx = "" → ∀ qp ∈ listQueryParams o, qp.1 ≠ "prefix") ∧
    (o.limit = 0 ∧ o.pfx = "" →
      (listFiles cfg o outcome).2.map Request.url =
        [serviceUrl ++ ("/cdn/storages/" ++ cfg.storageName ++ "/files/?")]) := by
  refine ⟨?_, ?_, ?_, ?_⟩
  · simp [listFiles, requestToService_snd]
  · intro h qp hqp
    by_cases hp : o.pfx = ""
    · simp [listQueryParams, h, hp] at hqp
    · simp [listQueryParams, h, hp] at hqp
      rw [hqp]
      exact (by decide : ("prefix" : String) ≠ "limit")
  · intro h qp hqp
    by_cases hl : o.limit = 0
    · simp [listQueryParams, h, hl] at hqp
    · simp [listQueryParams, h, hl] at hqp
      rw [hqp]
      exact (by decide : ("limit" : String) ≠ "prefix")
  · rintro ⟨h1, h2⟩
    have hq : listQueryParams o = [] := by simp [listQueryParams, h1, h2]
    have h0 : searchParamsToString [] = "" := by decide
    simp [listFiles, requestToService_snd, listFilesUrl, hq, h0]

/-- C10 witness: with limit 0 and an empty prefix both parameters are
dropped and the URL ends in the bare question mark. -/
theorem listFiles_param_omission_witness :
    (listFiles ⟨"k", "s"⟩ { limit := 0, pfx := "" }
        (AxiosOutcome.ok RespData.opaqueBody)).2.map Request.url =
      [serviceUrl ++ ("/cdn/storages/" ++ "s" ++ "/files/?")] :=
  (listFiles_param_omission ⟨"k", "s"⟩ { limit := 0, pfx := "" }
    (AxiosOutcome.ok RespData.opaqueBody)).2.2.2 ⟨rfl, rfl⟩

/-- C1 (counterexample): an existing file of 5 GiB + 1 byte is not rejected
locally: uploadFile issues network requests (the presign and the PUT) and,
with both phases succeeding, even returns success, so no 5 GiB cap is
enforced anywhere in the upload path. -/
theorem uploadFile_over_cap_counterexample :
    fiveGiB < 5368709121 ∧
    ((uploadFile ⟨true, false⟩ ⟨"k", "s"⟩
        ⟨⟨true, 5368709121⟩, none,
          PresignOutcome.ok "https://bucket.example/put" "obj-1", PutOutcome.ok⟩
        (UploadInput.path "big.bin")).2 ≠ []) ∧
    ((uploadFile ⟨true, false⟩ ⟨"k", "s"⟩
        ⟨⟨true, 5368709121⟩, none,
          PresignOutcome.ok "https://bucket.example/put" "obj-1", PutOutcome.ok⟩
        (UploadInput.path "big.bin")).1.success = true) := by
  refine ⟨by decide, by decide, by decide⟩

/-- C1 (amended): uploadFile performs no fileSize validation: for every
existing oversized input (beyond 5 GiB), in both the Node and the browser
adapter, the first request issued is the presign POST carrying the
oversized fileSize, rather than a local validation failure. -/
theorem uploadFile_no_size_cap (host : HostEnv) (cfg : ClientConfig) (w : UploadWorld)
    (p : String) (f : BrowserFile)
    (hnode : host.isNode = true) (hex : w.fs.existsSync = true)
    (hbig : fiveGiB < w.fs.size) (hbigf : fiveGiB < f.size) :
    ((uploadFile host cfg w (UploadInput.path p)).2.head? =
      some { method := "POST", url := serviceUrl ++ "/cdn/upload-url/",
             headers := _getServiceHeaders cfg,
             body := ReqBody.presign (path_basename p)
               (w.mime.getD "application/octet-stream") w.fs.size }) ∧
    ((uploadFile host cfg w (UploadInput.file f)).2.head? =
      some { method := "POST", url := serviceUrl ++ "/cdn/upload-url/",
             headers := _getServiceHeaders cfg,
             body := ReqBody.presign f.name (browserFileType f) f.size }) := by
  constructor
  · have h1 : uploadFile host cfg w (UploadInput.path p) =
        _uploadFileNode cfg p w.fs w.mime w.presign w.put := by
      simp [uploadFile, hnode]
    rw [h1]
    unfold _uploadFileNode
    rw [hex]
    cases w.presign <;> cases w.put <;>
      simp [PresignOutcome.toAxios, _requestToService, mergeHeaders, nodePresignPayload]
  · show (_uploadFileBrowser cfg f w.presign w.put).2.head? = _
    unfold _uploadFileBrowser
    cases w.presign <;> cases w.put <;>
      simp [PresignOutcome.toAxios, _requestToService, mergeHeaders, browserPresignPayload]

/-- C1 (amended) witness at a 5 GiB + 1 byte file in each adapter. -/
theorem uploadFile_no_size_cap_witness :
    ((uploadFile ⟨true, false⟩ ⟨"k", "s"⟩
        ⟨⟨true, 5368709121⟩, none,
          PresignOutcome.ok "https://bucket.example/put" "obj-1", PutOutcome.ok⟩
        (UploadInput.path "dir/big.bin")).2.head? =
      some { method := "POST", url := serviceUrl ++ "/cdn/upload-url/",
             headers := _getServiceHeaders ⟨"k", "s"⟩,
             body := ReqBody.presign "big.bin" "application/octet-stream" 5368709121 }) ∧
    ((uploadFile ⟨true, false⟩ ⟨"k", "s"⟩
        ⟨⟨true, 5368709121⟩, none,
          PresignOutcome.ok "https://bucket.example/put" "obj-1", PutOutcome.ok⟩
        (UploadInput.file ⟨"big.png", "", 5368709121⟩)).2.head? =
      some { method := "POST", url := serviceUrl ++ "/cdn/upload-url/",
             headers := _getServiceHeaders ⟨"k", "s"⟩,
             body := ReqBody.presign "big.png" "image/png" 5368709121 }) :=
  uploadFile_no_size_cap ⟨true, false⟩ ⟨"k", "s"⟩
    ⟨⟨true, 5368709121⟩, none,
      PresignOutcome.ok "https://bucket.example/put" "obj-1", PutOutcome.ok⟩
    "dir/big.bin" ⟨"big.png", "", 5368709121⟩ rfl rfl (by decide) (by decide)

/-- C3: when the presign phase produces a failure envelope, both adapters
return that envelope verbatim, the only request issued is the presign POST,
and no PUT is ever attempted. -/
theorem presign_failure_short_circuits (cfg : ClientConfig) (p : String) (fsm : NodeFs)
    (mim : Option String) (f : BrowserFile) (pres : PresignOutcome) (put : PutOutcome)
    (hex : fsm.existsSync = true)
    (hfail : (_requestToService cfg
        { method := "POST", url := "/cdn/upload-url/", data := nodePresignPayload p fsm mim }
        pres.toAxios).1.success = false) :
    (_uploadFileNode cfg p fsm mim pres put =
      ((_requestToService cfg
          { method := "POST", url := "/cdn/upload-url/", data := nodePresignPayload p fsm mim }
          pres.toAxios).1,
       [(_requestToService cfg
          { method := "POST", url := "/cdn/upload-url/", data := nodePresignPayload p fsm mim }
          pres.toAxios).2])) ∧
    (∀ q ∈ (_uploadFileNode cfg p fsm mim pres put).2, q.method ≠ "PUT") ∧
    (_uploadFileBrowser cfg f pres put =
      ((_requestToService cfg
          { method := "POST", url := "/cdn/upload-url/", data := browserPresignPayload f }
          pres.toAxios).1,
       [(_requestToService cfg
          { method := "POST", url := "/cdn/upload-url/", data := browserPresignPayload f }
          pres.toAxios).2])) ∧
    (∀ q ∈ (_uploadFileBrowser cfg f pres put).2, q.method ≠ "PUT") := by
  cases pres with
  | ok u k => simp [_requestToService, PresignOutcome.toAxios] at hfail
  | httpError st m d =>
      refine ⟨?_, ?_, ?_, ?_⟩
      · unfold _uploadFileNode
        rw [hex]
        simp [_requestToService, PresignOutcome.toAxios]
      · unfold _uploadFileNode
        rw [hex]
        simp [_requestToService, PresignOutcome.toAxios]
      · unfold _uploadFileBrowser
        simp [_requestToService, PresignOutcome.toAxios]
      · unfold _uploadFileBrowser
        simp [_requestToService, PresignOutcome.toAxios]
  | networkError c =>
      refine ⟨?_, ?_, ?_, ?_⟩
      · unfold _uploadFileNode
        rw [hex]
        simp [_requestToService, PresignOutcome.toAxios]
      · unfold _uploadFileNode
        rw [hex]
        simp [_requestToService, PresignOutcome.toAxios]
      · unfold _uploadFileBrowser
        simp [_requestToService, PresignOutcome.toAxios]
      · unfold _uploadFileBrowser
        simp [_requestToService, PresignOutcome.toAxios]

/-- C3 witness: a concrete 403 presign failure is returned verbatim with
only the presign request on the wire. -/
theorem presign_failure_short_circuits_witness :
    _uploadFileNode ⟨"k", "s"⟩ "a.txt" ⟨true, 10⟩ (some "text/plain")
        (PresignOutcome.httpError 403 (some "Forbidden") none) PutOutcome.ok =
      ({ success := false, status := some 403, message := some "Forbidden" },
       [{ method := "POST", url := serviceUrl ++ "/cdn/upload-url/",
          headers := _getServiceHeaders ⟨"k", "s"⟩,
          body := ReqBody.presign "a.txt" "text/plain" 10 }]) :=
  (presign_failure_short_circuits ⟨"k", "s"⟩ "a.txt" ⟨true, 10⟩ (some "text/plain")
    ⟨"b.png", "image/png", 5⟩ (PresignOutcome.httpError 403 (some "Forbidden") none)
    PutOutcome.ok rfl (by decide)).1

theorem chunksFuel_nil (n fuel : Nat) (α : Type _) : chunksFuel n fuel ([] : List α) = [] := by
  cases fuel <;> rfl

theorem chunksFuel_flatten (n : Nat) (hn : 1 ≤ n) :
    ∀ fuel (l : List α), l.length ≤ fuel → (chunksFuel n fuel l).flatten = l := by
  intro fuel
  induction fuel with
  | zero =>
      intro l hl
      cases l with
      | nil => rfl
      | cons x xs => simp at hl
  | succ fuel ih =>
      intro l hl
      cases l with
      | nil => rfl
      | cons x xs =>
          show ((x :: xs).take n :: chunksFuel n fuel ((x :: xs).drop n)).flatten = x :: xs
          rw [List.flatten_cons, ih]
          · exact List.take_append_drop n (x :: xs)
          · simp only [List.length_drop, List.length_cons] at *
            omega

theorem chunksFuel_mem (n : Nat) (hn : 1 ≤ n) :
    ∀ fuel (l : List α), l.length ≤ fuel →
      ∀ c ∈ chunksFuel n fuel l, c ≠ [] ∧ c.length ≤ n := by
  intro fuel
  induction fuel with
  | zero =>
      intro l hl c hc
      cases l with
      | nil => simp [chunksFuel] at hc
      | cons x xs => simp at hl
  | succ fuel ih =>
      intro l hl c hc
      cases l with
      | nil => simp [chunksFuel] at hc
      | cons x xs =>
          rw [show chunksFuel n (fuel + 1) (x :: xs) =
              (x :: xs).take n :: chunksFuel n fuel ((x :: xs).drop n) from rfl] at hc
          rcases List.mem_cons.mp hc with h | h
          · subst h
            constructor
            · cases n with
              | zero => omega
              | succ m => simp [List.take_succ_cons]
            · rw [List.length_take]
              exact Nat.min_le_left _ _
          · exact ih _ (by simp only [List.length_drop, List.length_cons] at *; omega) c h

theorem chunksFuel_get_length (n : Nat) (hn : 1 ≤ n) :
    ∀ fuel (l : List α), l.length ≤ fuel →
      ∀ i (h : i < (chunksFuel n fuel l).length),
        i + 1 < (chunksFuel n fuel l).length →
        ((chunksFuel n fuel l).get ⟨i, h⟩).length = n := by
  intro fuel
  induction fuel with
  | zero =>
      intro l hl i h hi
      cases l with
      | nil => simp [chunksFuel] at h
      | cons x xs => simp at hl
  | succ fuel ih =>
      intro l hl i h hi
      cases l with
      | nil => simp [chunksFuel] at h
      | cons x xs =>
          have hdef : chunksFuel n (fuel + 1) (x :: xs) =
              (x :: xs).take n :: chunksFuel n fuel ((x :: xs).drop n) := rfl
          cases i with
          | zero =>
              rw [hdef] at hi
              simp only [List.length_cons] at hi
              have hrest : chunksFuel n fuel ((x :: xs).drop n) ≠ [] := by
                intro h0
                rw [h0] at hi
                simp at hi
              have hdrop : (x :: xs).drop n ≠ [] := by
                intro h0
                rw [h0, chunksFuel_nil] at hrest
                exact hrest rfl
              have hlen : n < (x :: xs).length := by
                by_contra hle
                push_neg at hle
                exact hdrop (List.drop_eq_nil_of_le hle)
              show ((x :: xs).take n).length = n
              rw [List.length_take]
              omega
          | succ j =>
              rw [hdef] at h hi
              have h2 : j < (chunksFuel n fuel ((x :: xs).drop n)).length := by
                simp only [List.length_cons] at h
                omega
              have hi2 : j + 1 < (chunksFuel n fuel ((x :: xs).drop n)).length := by
                simp only [List.length_cons] at hi
                omega
              have hih := ih ((x :: xs).drop n)
                (by simp only [List.length_drop, List.length_cons] at *; omega) j h2 hi2
              show ((chunksFuel n fuel ((x :: xs).drop n)).get ⟨j, h2⟩).length = n
              exact hih

theorem jsChunks_flatten (n : Nat) (hn : 1 ≤ n) (l : List α) :
    (jsChunks n l).flatten = l :=
  chunksFuel_flatten n hn l.length l (Nat.le_refl _)

theorem jsChunks_mem (n : Nat) (hn : 1 ≤ n) (l : List α) :
    ∀ c ∈ jsChunks n l, c ≠ [] ∧ c.length ≤ n :=
  chunksFuel_mem n hn l.length l (Nat.le_refl _)

theorem jsChunks_get_length (n : Nat) (hn : 1 ≤ n) (l : List α) :
    ∀ i (h : i < (jsChunks n l).length), i + 1 < (jsChunks n l).length →
      ((jsChunks n l).get ⟨i, h⟩).length = n :=
  chunksFuel_get_length n hn l.length l (Nat.le_refl _)

/-- C4: in concurrent mode on a non-empty input with maxConcurrent at
least 1, the batch result is exactly the input mapped through the single
upload, so one result per input, in input order, each tagged with its file
name; the chunking used partitions the input into consecutive non-empty
chunks of size at most maxConcurrent whose concatenation is the input, all
chunks except possibly the last of size exactly maxConcurrent. -/
theorem uploadMultipleFiles_concurrent_spec (host : HostEnv) (cfg : ClientConfig)
    (worlds : UploadInput → UploadWorld) (l : List UploadInput) (opts : BatchOptions)
    (mc : Nat) (hne : l ≠ []) (hc : opts.concurrent = true) (hm : opts.maxConcurrent = mc)
    (hmc : 1 ≤ mc) :
    uploadMultipleFiles host cfg worlds (some l) opts = l.map (uploadOne host cfg worlds) ∧
    (uploadMultipleFiles host cfg worlds (some l) opts).length = l.length ∧
    (∀ i (hi : i < l.length)
        (hi2 : i < (uploadMultipleFiles host cfg worlds (some l) opts).length),
        (uploadMultipleFiles host cfg worlds (some l) opts).get ⟨i, hi2⟩ =
          { result := (uploadFile host cfg (worlds (l.get ⟨i, hi⟩)) (l.get ⟨i, hi⟩)).1,
            fileName := fileNameOf (l.get ⟨i, hi⟩) }) ∧
    (jsChunks mc l).flatten = l ∧
    (∀ c ∈ jsChunks mc l, c ≠ [] ∧ c.length ≤ mc) ∧
    (∀ i (h : i < (jsChunks mc l).length), i + 1 < (jsChunks mc l).length →
        ((jsChunks mc l).get ⟨i, h⟩).length = mc) := by
  have hmain : uploadMultipleFiles host cfg worlds (some l) opts =
      l.map (uploadOne host cfg worlds) := by
    cases l with
    | nil => exact absurd rfl hne
    | cons a as =>
        simp only [uploadMultipleFiles, hc, if_true, hm, if_neg (by omega : ¬ mc = 0)]
        rw [← List.map_flatten, jsChunks_flatten mc hmc]
  refine ⟨hmain, ?_, ?_, jsChunks_flatten mc hmc l, jsChunks_mem mc hmc l,
    jsChunks_get_length mc hmc l⟩
  · rw [hmain]
    simp
  · intro i hi hi2
    simp only [List.get_eq_getElem, hmain, List.getElem_map, uploadOne]

/-- C4 witness: five inputs with maxConcurrent 2 chunk as sizes [2, 2, 1],
and the batch result is the order-preserving per-file map. -/
theorem uploadMultipleFiles_concurrent_spec_witness :
    (jsChunks 2 [UploadInput.path "a", UploadInput.path "b", UploadInput.path "c",
        UploadInput.path "d", UploadInput.path "e"]).map List.length = [2, 2, 1] ∧
    uploadMultipleFiles ⟨true, false⟩ ⟨"k", "s"⟩
        (fun _ => ⟨⟨true, 1⟩, none, PresignOutcome.ok "u" "o", PutOutcome.ok⟩)
        (some [UploadInput.path "a", UploadInput.path "b", UploadInput.path "c",
          UploadInput.path "d", UploadInput.path "e"])
        { concurrent := true, maxConcurrent := 2 } =
      [UploadInput.path "a", UploadInput.path "b", UploadInput.path "c",
        UploadInput.path "d", UploadInput.path "e"].map
        (uploadOne ⟨true, false⟩ ⟨"k", "s"⟩
          (fun _ => ⟨⟨true, 1⟩, none, PresignOutcome.ok "u" "o", PutOutcome.ok⟩)) :=
  ⟨by decide,
   (uploadMultipleFiles_concurrent_spec ⟨true, false⟩ ⟨"k", "s"⟩
     (fun _ => ⟨⟨true, 1⟩, none, PresignOutcome.ok "u" "o", PutOutcome.ok⟩)
     [UploadInput.path "a", UploadInput.path "b", UploadInput.path "c",
       UploadInput.path "d", UploadInput.path "e"]
     { concurrent := true, maxConcurrent := 2 } 2 (by decide) rfl rfl (by decide)).1⟩

theorem msgPopulated_of_message {e : Envelope} (m : String) (hm : e.message = some m)
    (hne : m ≠ "") : msgPopulated e :=
  fun _ => ⟨m, hm, hne⟩

theorem msgPopulated_of_success {e : Envelope} (h : e.success = true) : msgPopulated e :=
  fun hf => absurd (h.symm.trans hf) (by decide)

theorem uploadKeyed_of_data {e : Envelope} (k : String)
    (h : e.data = some (RespData.uploaded k)) : uploadKeyed e :=
  fun _ => ⟨k, h⟩

theorem uploadKeyed_of_failure {e : Envelope} (h : e.success = false) : uploadKeyed e :=
  fun hs => absurd (h.symm.trans hs) (by decide)

theorem uploadFileNode_invariants (cfg : ClientConfig) (p : String) (fsm : NodeFs)
    (mim : Option String) (pres : PresignOutcome) (put : PutOutcome) :
    msgPopulated (_uploadFileNode cfg p fsm mim pres put).1 ∧
    uploadKeyed (_uploadFileNode cfg p fsm mim pres put).1 := by
  obtain ⟨e, sz⟩ := fsm
  cases e with
  | false =>
      exact ⟨msgPopulated_of_message ("File tidak ditemukan: " ++ p) rfl
        (append_ne_empty_left p (by decide)), uploadKeyed_of_failure rfl⟩
  | true =>
      cases pres with
      | ok u k =>
          cases put with
          | ok =>
              exact ⟨msgPopulated_of_success rfl, uploadKeyed_of_data k rfl⟩
          | httpError st stext =>
              exact ⟨msgPopulated_of_message
                ("Gagal mengunggah ke storage: " ++ toString st ++ " - " ++ stext) rfl
                (append_ne_empty_left stext (append_ne_empty_left " - "
                  (append_ne_empty_left (toString st) (by decide)))),
                uploadKeyed_of_failure rfl⟩
          | networkError c =>
              exact ⟨msgPopulated_of_message ("Koneksi ke storage gagal: " ++ c) rfl
                (append_ne_empty_left c (by decide)), uploadKeyed_of_failure rfl⟩
      | httpError st m d =>
          exact ⟨msgPopulated_of_message (errMessage m d) rfl (errMessage_ne_empty m d),
            uploadKeyed_of_failure rfl⟩
      | networkError c =>
          exact ⟨msgPopulated_of_message ("Koneksi ke server gagal: " ++ c) rfl
            (append_ne_empty_left c (by decide)), uploadKeyed_of_failure rfl⟩

theorem uploadFileBrowser_invariants (cfg : ClientConfig) (f : BrowserFile)
    (pres : PresignOutcome) (put : PutOutcome) :
    msgPopulated (_uploadFileBrowser cfg f pres put).1 ∧
    uploadKeyed (_uploadFileBrowser cfg f pres put).1 := by
  cases pres with
  | ok u k =>
      cases put with
      | ok =>
          exact ⟨msgPopulated_of_success rfl, uploadKeyed_of_data k rfl⟩
      | httpError st stext =>
          exact ⟨msgPopulated_of_message
            ("Gagal mengunggah ke storage: " ++ toString st ++ " - " ++ stext) rfl
            (append_ne_empty_left stext (append_ne_empty_left " - "
              (append_ne_empty_left (toString st) (by decide)))),
            uploadKeyed_of_failure rfl⟩
      | networkError c =>
          exact ⟨msgPopulated_of_message ("Koneksi ke storage gagal: " ++ c) rfl
            (append_ne_empty_left c (by decide)), uploadKeyed_of_failure rfl⟩
  | httpError st m d =>
      exact ⟨msgPopulated_of_message (errMessage m d) rfl (errMessage_ne_empty m d),
        uploadKeyed_of_failure rfl⟩
  | networkError c =>
      exact ⟨msgPopulated_of_message ("Koneksi ke server gagal: " ++ c) rfl
        (append_ne_empty_left c (by decide)), uploadKeyed_of_failure rfl⟩

theorem uploadFile_invariants (host : HostEnv) (cfg : ClientConfig) (w : UploadWorld)
    (input : UploadInput) :
    msgPopulated (uploadFile host cfg w input).1 ∧
    uploadKeyed (uploadFile host cfg w input).1 := by
  obtain ⟨hN, hB⟩ := host
  cases input with
  | path p =>
      cases hN with
      | true => exact uploadFileNode_invariants cfg p w.fs w.mime w.presign w.put
      | false =>
          exact ⟨msgPopulated_of_message
            "File path tidak didukung di browser. Gunakan File object." rfl (by decide),
            uploadKeyed_of_failure rfl⟩
  | file f => exact uploadFileBrowser_invariants cfg f w.presign w.put
  | invalid =>
      exact ⟨msgPopulated_of_message
        "Parameter tidak valid. Gunakan file path (Node.js) atau File object (Browser)." rfl
        (by decide), uploadKeyed_of_failure rfl⟩

/-- C5: every envelope a public operation returns satisfies the envelope
invariant: success false implies a non-empty message, and a successful
upload envelope carries its object key in the data payload; batch entries
satisfy both invariants entrywise. -/
theorem envelope_invariants (host : HostEnv) (cfg : ClientConfig) (w : UploadWorld)
    (input : UploadInput) (key : String) (dOut iOut lOut : AxiosOutcome) (o : ListOptions)
    (spec : RequestSpec) (fOut : FetchOutcome) (worlds : UploadInput → UploadWorld)
    (inp : Option (List UploadInput)) (opts : BatchOptions) :
    (msgPopulated (uploadFile host cfg w input).1 ∧
      uploadKeyed (uploadFile host cfg w input).1) ∧
    msgPopulated (deleteFile cfg key dOut).1 ∧
    msgPopulated (getStorageInfo cfg iOut).1 ∧
    msgPopulated (listFiles cfg o lOut).1 ∧
    msgPopulated (_requestToServiceBrowser cfg spec fOut).1 ∧
    (∀ r ∈ uploadMultipleFiles host cfg worlds inp opts,
        msgPopulated r.result ∧ uploadKeyed r.result) := by
  refine ⟨uploadFile_invariants host cfg w input, ?_, ?_, ?_,
    requestToServiceBrowser_msgPopulated cfg spec fOut, ?_⟩
  · by_cases hk : key = ""
    · subst hk
      exact msgPopulated_of_message "Object key diperlukan." rfl (by decide)
    · have hdel : (deleteFile cfg key dOut).1 =
          (_requestToService cfg
            { method := "DELETE", url := "/cdn/delete-object/", data := ReqBody.key key }
            dOut).1 := by
        simp [deleteFile, hk]
      rw [hdel]
      exact requestToService_msgPopulated cfg _ dOut
  · exact requestToService_msgPopulated cfg _ iOut
  · exact requestToService_msgPopulated cfg _ lOut
  · intro r hr
    cases inp with
    | none =>
        simp [uploadMultipleFiles] at hr
        subst hr
        exact ⟨msgPopulated_of_message "Array file diperlukan dan tidak boleh kosong." rfl
          (by decide), uploadKeyed_of_failure rfl⟩
    | some l =>
        cases l with
        | nil =>
            simp [uploadMultipleFiles] at hr
            subst hr
            exact ⟨msgPopulated_of_message "Array file diperlukan dan tidak boleh kosong." rfl
              (by decide), uploadKeyed_of_failure rfl⟩
        | cons a as =>
            cases hco : opts.concurrent with
            | true =>
                have hres : uploadMultipleFiles host cfg worlds (some (a :: as)) opts =
                    ((jsChunks (if opts.maxConcurrent = 0 then 3 else opts.maxConcurrent)
                        (a :: as)).map
                      (fun batch => batch.map (uploadOne host cfg worlds))).flatten := by
                  simp [uploadMultipleFiles, hco]
                rw [hres] at hr
                rcases List.mem_flatten.mp hr with ⟨b, hb, hrb⟩
                rcases List.mem_map.mp hb with ⟨c, hcmem, hbeq⟩
                subst hbeq
                rcases List.mem_map.mp hrb with ⟨x, hx, hxeq⟩
                subst hxeq
                exact uploadFile_invariants host cfg (worlds x) x
            | false =>
                have hres : uploadMultipleFiles host cfg worlds (some (a :: as)) opts =
                    (a :: as).map (uploadOne host cfg worlds) := by
                  simp [uploadMultipleFiles, hco]
                rw [hres] at hr
                rcases List.mem_map.mp hr with ⟨x, hx, hxeq⟩
                subst hxeq
                exact uploadFile_invariants host cfg (worlds x) x

/-- C5 witness: a rejected path in the browser host produces a populated
failure message, and a fully successful Node upload carries its key. -/
theorem envelope_invariants_witness :
    (∃ m, (uploadFile ⟨false, true⟩ ⟨"k", "s"⟩
        ⟨⟨true, 4⟩, none, PresignOutcome.ok "u" "o", PutOutcome.ok⟩
        (UploadInput.path "a.txt")).1.message = some m ∧ m ≠ "") ∧
    (∃ k, (uploadFile ⟨true, false⟩ ⟨"k", "s"⟩
        ⟨⟨true, 4⟩, none, PresignOutcome.ok "u" "obj-9", PutOutcome.ok⟩
        (UploadInput.path "a.txt")).1.data = some (RespData.uploaded k)) :=
  ⟨(envelope_invariants ⟨false, true⟩ ⟨"k", "s"⟩
      ⟨⟨true, 4⟩, none, PresignOutcome.ok "u" "o", PutOutcome.ok⟩
      (UploadInput.path "a.txt") "x" (AxiosOutcome.ok RespData.opaqueBody)
      (AxiosOutcome.ok RespData.opaqueBody) (AxiosOutcome.ok RespData.opaqueBody) {}
      { method := "GET", url := "/" } (FetchOutcome.ok RespData.opaqueBody)
      (fun _ => ⟨⟨true, 4⟩, none, PresignOutcome.ok "u" "o", PutOutcome.ok⟩) none {}).1.1
    (by decide),
   (envelope_invariants ⟨true, false⟩ ⟨"k", "s"⟩
      ⟨⟨true, 4⟩, none, PresignOutcome.ok "u" "obj-9", PutOutcome.ok⟩
      (UploadInput.path "a.txt") "x" (AxiosOutcome.ok RespData.opaqueBody)
      (AxiosOutcome.ok RespData.opaqueBody) (AxiosOutcome.ok RespData.opaqueBody) {}
      { method := "GET", url := "/" } (FetchOutcome.ok RespData.opaqueBody)
      (fun _ => ⟨⟨true, 4⟩, none, PresignOutcome.ok "u" "o", PutOutcome.ok⟩) none {}).1.2
    (by decide)⟩

theorem putHeaders_node (ft cl : String) :
    ∀ hv ∈ [("Content-Type", ft), ("Content-Length", cl)],
      (hv : String × String).1 ≠ "Authorization" ∧ hv.1 ≠ "Storage" := by
  intro hv hhv
  simp at hhv
  rcases hhv with h | h <;> subst h
  · exact ⟨(by decide : ("Content-Type" : String) ≠ "Authorization"),
      (by decide : ("Content-Type" : String) ≠ "Storage")⟩
  · exact ⟨(by decide : ("Content-Length" : String) ≠ "Authorization"),
      (by decide : ("Content-Length" : String) ≠ "Storage")⟩

theorem putHeaders_browser (ft : String) :
    ∀ hv ∈ [("Content-Type", ft)],
      (hv : String × String).1 ≠ "Authorization" ∧ hv.1 ≠ "Storage" := by
  intro hv hhv
  simp at hhv
  subst hhv
  exact ⟨(by decide : ("Content-Type" : String) ≠ "Authorization"),
    (by decide : ("Content-Type" : String) ≠ "Storage")⟩

/-- C8: for every client configuration the service calls (presign, delete,
storage info, file listing) carry exactly the service headers, which
include the Authorization ApiKey header, the application/json Content-Type
and the Storage header; the raw upload PUT to the presigned URL carries
neither the Authorization nor the Storage header. -/
theorem service_headers_spec (cfg : ClientConfig) (key : String) (o : ListOptions)
    (dOut iOut lOut : AxiosOutcome) (p : String) (fsm : NodeFs) (mim : Option String)
    (f : BrowserFile) (pres : PresignOutcome) (put : PutOutcome) (hkey : key ≠ "") :
    (("Authorization", "ApiKey " ++ cfg.apiKey) ∈ _getServiceHeaders cfg ∧
     ("Content-Type", "application/json") ∈ _getServiceHeaders cfg ∧
     ("Storage", "Storage " ++ cfg.storageName) ∈ _getServiceHeaders cfg) ∧
    (∀ q ∈ (getStorageInfo cfg iOut).2, q.headers = _getServiceHeaders cfg) ∧
    (∀ q ∈ (listFiles cfg o lOut).2, q.headers = _getServiceHeaders cfg) ∧
    (∀ q ∈ (deleteFile cfg key dOut).2, q.headers = _getServiceHeaders cfg) ∧
    (∀ q ∈ (_uploadFileNode cfg p fsm mim pres put).2,
        (q.method ≠ "PUT" → q.headers = _getServiceHeaders cfg) ∧
        (q.method = "PUT" →
          ∀ hv ∈ q.headers, hv.1 ≠ "Authorization" ∧ hv.1 ≠ "Storage")) ∧
    (∀ q ∈ (_uploadFileBrowser cfg f pres put).2,
        (q.method ≠ "PUT" → q.headers = _getServiceHeaders cfg) ∧
        (q.method = "PUT" →
          ∀ hv ∈ q.headers, hv.1 ≠ "Authorization" ∧ hv.1 ≠ "Storage")) := by
  refine ⟨⟨by simp [_getServiceHeaders], by simp [_getServiceHeaders],
    by simp [_getServiceHeaders]⟩, ?_, ?_, ?_, ?_, ?_⟩
  · intro q hq
    simp [getStorageInfo, requestToService_snd, mergeHeaders_nil] at hq
    subst hq
    rfl
  · intro q hq
    simp [listFiles, requestToService_snd, mergeHeaders_nil] at hq
    subst hq
    rfl
  · intro q hq
    simp [deleteFile, hkey, requestToService_snd, mergeHeaders_nil] at hq
    subst hq
    rfl
  · intro q hq
    obtain ⟨e, sz⟩ := fsm
    cases e with
    | false => simp [_uploadFileNode] at hq
    | true =>
        cases pres with
        | ok u k =>
            cases put with
            | ok =>
                simp [_uploadFileNode, _requestToService, PresignOutcome.toAxios,
                  mergeHeaders_nil] at hq
                rcases hq with hq | hq <;> subst hq
                · exact ⟨fun _ => rfl,
                  fun hput => absurd (show ("POST" : String) = "PUT" from hput) (by decide)⟩
                · exact ⟨fun hnp => absurd rfl hnp, fun _ => putHeaders_node _ _⟩
            | httpError st stext =>
                simp [_uploadFileNode, _requestToService, PresignOutcome.toAxios,
                  mergeHeaders_nil] at hq
                rcases hq with hq | hq <;> subst hq
                · exact ⟨fun _ => rfl,
                  fun hput => absurd (show ("POST" : String) = "PUT" from hput) (by decide)⟩
                · exact ⟨fun hnp => absurd rfl hnp, fun _ => putHeaders_node _ _⟩
            | networkError c =>
                simp [_uploadFileNode, _requestToService, PresignOutcome.toAxios,
                  mergeHeaders_nil] at hq
                rcases hq with hq | hq <;> subst hq
                · exact ⟨fun _ => rfl,
                  fun hput => absurd (show ("POST" : String) = "PUT" from hput) (by decide)⟩
                · exact ⟨fun hnp => absurd rfl hnp, fun _ => putHeaders_node _ _⟩
        | httpError st m d =>
            simp [_uploadFileNode, _requestToService, PresignOutcome.toAxios,
              mergeHeaders_nil] at hq
            subst hq
            exact ⟨fun _ => rfl,
                  fun hput => absurd (show ("POST" : String) = "PUT" from hput) (by decide)⟩
        | networkError c =>
            simp [_uploadFileNode, _requestToService, PresignOutcome.toAxios,
              mergeHeaders_nil] at hq
            subst hq
            exact ⟨fun _ => rfl,
                  fun hput => absurd (show ("POST" : String) = "PUT" from hput) (by decide)⟩
  · intro q hq
    cases pres with
    | ok u k =>
        cases put with
        | ok =>
            simp [_uploadFileBrowser, _requestToService, PresignOutcome.toAxios,
              mergeHeaders_nil] at hq
            rcases hq with hq | hq <;> subst hq
            · exact ⟨fun _ => rfl,
                  fun hput => absurd (show ("POST" : String) = "PUT" from hput) (by decide)⟩
            · exact ⟨fun hnp => absurd rfl hnp, fun _ => putHeaders_browser _⟩
        | httpError st stext =>
            simp [_uploadFileBrowser, _requestToService, PresignOutcome.toAxios,
              mergeHeaders_nil] at hq
            rcases hq with hq | hq <;> subst hq
            · exact ⟨fun _ => rfl,
                  fun hput => absurd (show ("POST" : String) = "PUT" from hput) (by decide)⟩
            · exact ⟨fun hnp => absurd rfl hnp, fun _ => putHeaders_browser _⟩
        | networkError c =>
            simp [_uploadFileBrowser, _requestToService, PresignOutcome.toAxios,
              mergeHeaders_nil] at hq
            rcases hq with hq | hq <;> subst hq
            · exact ⟨fun _ => rfl,
                  fun hput => absurd (show ("POST" : String) = "PUT" from hput) (by decide)⟩
            · exact ⟨fun hnp => absurd rfl hnp, fun _ => putHeaders_browser _⟩
    | httpError st m d =>
        simp [_uploadFileBrowser, _requestToService, PresignOutcome.toAxios,
          mergeHeaders_nil] at hq
        subst hq
        exact ⟨fun _ => rfl,
                  fun hput => absurd (show ("POST" : String) = "PUT" from hput) (by decide)⟩
    | networkError c =>
        simp [_uploadFileBrowser, _requestToService, PresignOutcome.toAxios,
          mergeHeaders_nil] at hq
        subst hq
        exact ⟨fun _ => rfl,
                  fun hput => absurd (show ("POST" : String) = "PUT" from hput) (by decide)⟩

/-- C8 witness: the delete request of a concrete client carries exactly the
service headers. -/
theorem service_headers_spec_witness :
    ({ method := "DELETE", url := serviceUrl ++ "/cdn/delete-object/",
       headers := _getServiceHeaders ⟨"k", "s"⟩, body := ReqBody.key "obj" } : Request).headers =
      _getServiceHeaders ⟨"k", "s"⟩ :=
  (service_headers_spec ⟨"k", "s"⟩ "obj" {} (AxiosOutcome.ok RespData.opaqueBody)
    (AxiosOutcome.ok RespData.opaqueBody) (AxiosOutcome.ok RespData.opaqueBody)
    "a.txt" ⟨true, 3⟩ none ⟨"b.png", "image/png", 4⟩ (PresignOutcome.ok "u" "o")
    PutOutcome.ok (by decide)).2.2.2.1 _ (by decide)

theorem lookup_val_ne_empty :
    ∀ (l : List (String × String)), (∀ pr ∈ l, pr.2 ≠ "") →
      ∀ e v, l.lookup e = some v → v ≠ "" := by
  intro l
  induction l with
  | nil =>
      intro _ e v h
      simp [List.lookup] at h
  | cons hd tl ih =>
      intro hl e v h
      obtain ⟨k, b⟩ := hd
      rw [List.lookup] at h
      cases hbeq : (e == k) with
      | true =>
          rw [hbeq] at h
          simp at h
          rw [← h]
          exact hl (k, b) (List.mem_cons_self _ _)
      | false =>
          rw [hbeq] at h
          exact ih (fun pr hpr => hl pr (List.mem_cons_of_mem _ hpr)) e v h

/-- C9: the content-type resolver is total with a non-empty result on every
file name, resolves photo.PNG to image/png, resolves an extensionless name
to the octet-stream fallback, and depends only on the lower-cased last
dot-separated segment of the name (case-insensitivity on the extension). -/
theorem mime_resolver_spec :
    (∀ name, _getBrowserMimeType name ≠ "") ∧
    _getBrowserMimeType "photo.PNG" = "image/png" ∧
    _getBrowserMimeType "noextension" = "application/octet-stream" ∧
    (∀ n1 n2, lowerStr (lastDotSegment n1) = lowerStr (lastDotSegment n2) →
      _getBrowserMimeType n1 = _getBrowserMimeType n2) := by
  refine ⟨?_, by decide, by decide, ?_⟩
  · intro name
    unfold _getBrowserMimeType
    cases h : mimeTypes.lookup (lowerStr (lastDotSegment name)) with
    | none => exact (by decide : ("application/octet-stream" : String) ≠ "")
    | some v => exact lookup_val_ne_empty mimeTypes (by decide) _ v h
  · intro n1 n2 h
    unfold _getBrowserMimeType
    rw [h]

/-- C9 witness: two names whose extensions agree up to case resolve to the
same type. -/
theorem mime_resolver_spec_witness :
    _getBrowserMimeType "a.pNg" = _getBrowserMimeType "b.PNG" :=
  mime_resolver_spec.2.2.2 "a.pNg" "b.PNG" (by decide)
